import Mathlib

/-!
Shallow embedding of `src/sbdd.c` (simple block device driver, kernel module):
the transfer engine `sbdd_xfer`, the per-request segment loop `sbdd_xfer_bio`,
the request dispatcher `sbdd_make_request`, the creation routine `sbdd_create`,
and an interleaving model of the admission counter / deletion synchronization
(`atomic_read(deleting)`, `atomic_inc_not_zero`, `atomic_dec_and_test`,
`atomic_dec_if_positive`, `wait_event`) used by `sbdd_make_request` and
`sbdd_delete`.

Machine integers are modelled as `Nat` with explicit reduction modulo `2 ^ 64`
where the C code computes in `sector_t` / `size_t` (both 64-bit unsigned on the
target platform).  The backing store `__sbdd.data` and the segment buffers are
modelled as total byte functions `Nat → Nat`; `memcpy` is function override on
the copied index range.
-/

namespace Sbdd

/-- `#define SBDD_SECTOR_SHIFT 9` (src/sbdd.c:23). -/
def SECTOR_SHIFT : Nat := 9

/-- `#define SBDD_SECTOR_SIZE (1 << SBDD_SECTOR_SHIFT)` (src/sbdd.c:24). -/
def SECTOR_SIZE : Nat := 2 ^ SECTOR_SHIFT

/-- `#define SBDD_MIB_SECTORS (1 << (20 - SBDD_SECTOR_SHIFT))` (src/sbdd.c:25). -/
def MIB_SECTORS : Nat := 2 ^ (20 - SECTOR_SHIFT)

/-- Modulus of 64-bit unsigned arithmetic (`sector_t`, `size_t`, `unsigned long`). -/
def U64 : Nat := 2 ^ 64

/-- Default of the module parameter `__sbdd_capacity_mib` (src/sbdd.c:41). -/
def sbdd_capacity_mib_default : Nat := 100

/-- The all-zero byte store, as produced by `vzalloc` (src/sbdd.c:130). -/
def zeroBytes : Nat → Nat := fun _ => 0

/-- One `struct bio_vec` segment: the mapped buffer bytes (`kmap_atomic(bv_page)
+ bv_offset`) and the byte length `bv_len` (an `unsigned int`). -/
structure BioVec where
  buff : Nat → Nat
  bv_len : Nat

/-- Result of one `sbdd_xfer` call: the backing store after the call, the
segment buffer after the call (changed only by reads), and the returned
sector count. -/
structure XferResult where
  data : Nat → Nat
  buff : Nat → Nat
  len : Nat

/-- `sbdd_xfer` (src/sbdd.c:43-69).  `len = bvec->bv_len >> SBDD_SECTOR_SHIFT`;
if `pos + len > capacity` (64-bit compare) then `len = capacity - pos`
(64-bit wrapping subtraction); `offset = pos << SBDD_SECTOR_SHIFT` and
`nbytes = len << SBDD_SECTOR_SHIFT` are `size_t` (mod `2 ^ 64`); `dir` nonzero
copies segment→store (`memcpy(__sbdd.data + offset, buff, nbytes)`), zero
copies store→segment.  Returns `len`. -/
def sbdd_xfer (capacity : Nat) (data : Nat → Nat) (bvec : BioVec) (pos : Nat)
    (dir : Bool) : XferResult :=
  let len0 := bvec.bv_len / SECTOR_SIZE
  let len := if (pos + len0) % U64 > capacity then (capacity + U64 - pos) % U64 else len0
  let offset := (pos * SECTOR_SIZE) % U64
  let nbytes := (len * SECTOR_SIZE) % U64
  if dir then
    { data := fun i => if offset ≤ i ∧ i < offset + nbytes then bvec.buff (i - offset) else data i
      buff := bvec.buff
      len := len }
  else
    { data := data
      buff := fun i => if i < nbytes then data (offset + i) else bvec.buff i
      len := len }

/-- `sbdd_xfer_bio` (src/sbdd.c:71-80): `bio_for_each_segment(bvec, bio, iter)
pos += sbdd_xfer(&bvec, pos, dir);`.  Returns the list of per-segment returned
lengths (in processing order) and the final backing store. -/
def sbdd_xfer_bio (capacity : Nat) (dir : Bool) :
    List BioVec → Nat → (Nat → Nat) → List Nat × (Nat → Nat)
  | [], _, data => ([], data)
  | b :: rest, pos, data =>
    let r := sbdd_xfer capacity data b pos dir
    ((r.len :: (sbdd_xfer_bio capacity dir rest (pos + r.len) r.data).1),
     (sbdd_xfer_bio capacity dir rest (pos + r.len) r.data).2)

/-- One `struct bio` as seen by the driver: `bio_data_dir(bio)`,
`bio->bi_iter.bi_sector`, and the segment sequence. -/
structure Bio where
  dir : Bool
  sector : Nat
  segs : List BioVec

/-- Return status of `sbdd_make_request`: `BLK_STS_OK` or `BLK_STS_IOERR`. -/
inductive BlkStatus where
  | ok
  | ioerr
deriving DecidableEq

/-- The device state seen by one sequential `sbdd_make_request` invocation:
`__sbdd.deleting`, `__sbdd.refs_cnt`, `__sbdd.capacity`, `__sbdd.data`. -/
structure SbddState where
  deleting : Bool
  refs_cnt : Nat
  capacity : Nat
  data : Nat → Nat

/-- `sbdd_make_request` (src/sbdd.c:82-101), sequential semantics: reject with
`bio_io_error` if `atomic_read(&deleting)` is nonzero; reject if
`atomic_inc_not_zero(&refs_cnt)` fails (counter already 0); otherwise run
`sbdd_xfer_bio`, `bio_endio` (success), `atomic_dec_and_test(&refs_cnt)`, and
`wake_up(&exitwait)` iff the decrement reached 0.  Returns the state after the
call, the block status, and whether the wake-up was issued. -/
def sbdd_make_request (s : SbddState) (bio : Bio) : SbddState × BlkStatus × Bool :=
  if s.deleting then (s, BlkStatus.ioerr, false)
  else if s.refs_cnt = 0 then (s, BlkStatus.ioerr, false)
  else
    let refs1 := s.refs_cnt + 1
    let data1 := (sbdd_xfer_bio s.capacity bio.dir bio.segs bio.sector s.data).2
    let refs2 := refs1 - 1
    ({ s with refs_cnt := refs2, data := data1 }, BlkStatus.ok, refs2 = 0)

/-- Success/failure oracles for the external allocators called by
`sbdd_create`: `register_blkdev`, `vzalloc`, `blk_alloc_queue`, `alloc_disk`. -/
structure CreateEnv where
  register_ok : Bool
  vzalloc_ok : Bool
  q_ok : Bool
  gd_ok : Bool

/-- Outcome of `sbdd_create`: `0` on success, `-EBUSY`, `-ENOMEM`, `-EINVAL`,
or `crash` for the unchecked NULL dereference `__sbdd.gd->queue = __sbdd.q`
when `alloc_disk` fails (src/sbdd.c:152-155, no NULL check). -/
inductive CreateResult where
  | ok
  | ebusy
  | enomem
  | einval
  | crash
deriving DecidableEq

/-- The fields of the global `struct sbdd` (plus the registration status)
that `sbdd_create` / `sbdd_delete` manage.  `data` is the backing store
contents (`none` = NULL pointer), `dataBytes` the allocated size in bytes,
`q` / `gd` whether the queue / gendisk were allocated, `published` whether
`add_disk` was called. -/
structure DevState where
  deleting : Bool
  refs_cnt : Nat
  capacity : Nat
  data : Option (Nat → Nat)
  dataBytes : Nat
  q : Bool
  gd : Bool
  published : Bool

/-- The zeroed `struct sbdd` (static storage / after `memset`). -/
def zeroDev : DevState :=
  { deleting := false, refs_cnt := 0, capacity := 0, data := none,
    dataBytes := 0, q := false, gd := false, published := false }

/-- `sbdd_create` (src/sbdd.c:111-173).  `register_blkdev` failure returns
`-EBUSY`; then `memset(&__sbdd, 0, ...)` and
`capacity = capacity_mib * SBDD_MIB_SECTORS` (64-bit product);
`vzalloc(capacity << SBDD_SECTOR_SHIFT)` failure returns `-ENOMEM`;
`blk_alloc_queue` failure returns `-EINVAL`; `alloc_disk(1)` is NOT checked
and its result is dereferenced immediately, so that failure is a NULL-pointer
dereference (`crash`).  On success `refs_cnt` is set to 1 and `add_disk`
publishes the device.  There is no validation of `capacity > 0` anywhere. -/
def sbdd_create (capacity_mib : Nat) (env : CreateEnv) : DevState × CreateResult :=
  if env.register_ok = false then (zeroDev, CreateResult.ebusy)
  else
    let cap := (capacity_mib * MIB_SECTORS) % U64
    if env.vzalloc_ok = false then
      ({ zeroDev with capacity := cap }, CreateResult.enomem)
    else
      let d1 := { zeroDev with
                  capacity := cap
                  data := some zeroBytes
                  dataBytes := (cap * SECTOR_SIZE) % U64 }
      if env.q_ok = false then (d1, CreateResult.einval)
      else
        let d2 := { d1 with q := true }
        if env.gd_ok = false then (d2, CreateResult.crash)
        else
          ({ d2 with gd := true, refs_cnt := 1, published := true }, CreateResult.ok)

/-!
Interleaving model of the admission counter and deletion.

Each concurrent `sbdd_make_request` invocation is split into its atomic
operations on the shared state, exactly as in src/sbdd.c:84-98:
`atomic_read(&deleting)` (one step), `atomic_inc_not_zero(&refs_cnt)` (one
step), and — after the transfer — `atomic_dec_and_test(&refs_cnt)` (one step).
`sbdd_delete` (src/sbdd.c:175-200) contributes `atomic_set(&deleting, 1)`,
`atomic_dec_if_positive(&refs_cnt)`, the `wait_event` until `refs_cnt == 0`,
unpublication (`del_gendisk`), and `vfree(data)`.
-/

/-- Program counter of one request (one `sbdd_make_request` invocation):
`start` = about to read the deleting flag; `checked` = passed the deleting
check, about to run `atomic_inc_not_zero`; `admitted` = increment succeeded,
transfer in progress, about to decrement; `rejected` = failed a check;
`done` = decremented and finished. -/
inductive RPC where
  | start
  | checked
  | admitted
  | rejected
  | done
deriving DecidableEq

/-- Program counter of the deleter (`sbdd_delete`): `setFlag` = about to set
the deleting flag (deletion not started yet); `decTok` = about to release the
creation-time token with `atomic_dec_if_positive`; `waiting` = inside
`wait_event` until `refs_cnt == 0`; `unpublished` = past `del_gendisk`,
about to `vfree`; `freed` = backing store freed. -/
inductive DPC where
  | setFlag
  | decTok
  | waiting
  | unpublished
  | freed
deriving DecidableEq

/-- Shared state of the interleaving model: the deleting flag, the admission
counter `refs_cnt`, whether `vfree(__sbdd.data)` has run, the program counter
of every request thread, and the deleter's program counter. -/
structure CState where
  deleting : Bool
  refs : Nat
  freed : Bool
  reqs : List RPC
  dpc : DPC
deriving DecidableEq

/-- One atomic step of the interleaving model of src/sbdd.c. -/
inductive Step : CState → CState → Prop where
  | checkPass : ∀ (s : CState) (i : Nat), s.reqs.get? i = some RPC.start →
      s.deleting = false → Step s { s with reqs := s.reqs.set i RPC.checked }
  | checkFail : ∀ (s : CState) (i : Nat), s.reqs.get? i = some RPC.start →
      s.deleting = true → Step s { s with reqs := s.reqs.set i RPC.rejected }
  | incOk : ∀ (s : CState) (i : Nat), s.reqs.get? i = some RPC.checked →
      s.refs ≠ 0 → Step s { s with reqs := s.reqs.set i RPC.admitted, refs := s.refs + 1 }
  | incFail : ∀ (s : CState) (i : Nat), s.reqs.get? i = some RPC.checked →
      s.refs = 0 → Step s { s with reqs := s.reqs.set i RPC.rejected }
  | finish : ∀ (s : CState) (i : Nat), s.reqs.get? i = some RPC.admitted →
      Step s { s with reqs := s.reqs.set i RPC.done, refs := s.refs - 1 }
  | delSet : ∀ (s : CState), s.dpc = DPC.setFlag →
      Step s { s with deleting := true, dpc := DPC.decTok }
  | delDec : ∀ (s : CState), s.dpc = DPC.decTok →
      Step s { s with refs := s.refs - 1, dpc := DPC.waiting }
  | delWake : ∀ (s : CState), s.dpc = DPC.waiting → s.refs = 0 →
      Step s { s with dpc := DPC.unpublished }
  | delFree : ∀ (s : CState), s.dpc = DPC.unpublished →
      Step s { s with dpc := DPC.freed, freed := true }

/-- Initial state after a successful creation with `n` pending request
threads: `deleting = 0`, `refs_cnt = 1` (the creation token), nothing freed,
deletion not yet started. -/
def initC (n : Nat) : CState :=
  { deleting := false, refs := 1, freed := false,
    reqs := List.replicate n RPC.start, dpc := DPC.setFlag }

/-- Reachability in the interleaving model. -/
def Reach (s s' : CState) : Prop := Relation.ReflTransGen Step s s'

/-!  Characterization of `sbdd_xfer` when the position does not exceed the
capacity and all quantities are far from the 64-bit wrap-around. -/

theorem sbdd_xfer_eq (capacity pos : Nat) (bv : BioVec) (data : Nat → Nat) (dir : Bool)
    (hcap : capacity < 2 ^ 55) (hpos : pos ≤ capacity) (hlen : bv.bv_len < 2 ^ 32) :
    sbdd_xfer capacity data bv pos dir =
      (if dir then
        { data := fun i => if pos * SECTOR_SIZE ≤ i ∧
              i < pos * SECTOR_SIZE + min (bv.bv_len / SECTOR_SIZE) (capacity - pos) * SECTOR_SIZE
            then bv.buff (i - pos * SECTOR_SIZE) else data i
          buff := bv.buff
          len := min (bv.bv_len / SECTOR_SIZE) (capacity - pos) }
      else
        { data := data
          buff := fun i => if i < min (bv.bv_len / SECTOR_SIZE) (capacity - pos) * SECTOR_SIZE
            then data (pos * SECTOR_SIZE + i) else bv.buff i
          len := min (bv.bv_len / SECTOR_SIZE) (capacity - pos) } : XferResult) := by
  rw [show (2 : Nat) ^ 55 = 36028797018963968 from by norm_num] at hcap
  rw [show (2 : Nat) ^ 32 = 4294967296 from by norm_num] at hlen
  have hU : U64 = 18446744073709551616 := by norm_num [U64]
  have hS : SECTOR_SIZE = 512 := by norm_num [SECTOR_SIZE, SECTOR_SHIFT]
  have hlen0 : bv.bv_len / SECTOR_SIZE ≤ bv.bv_len := Nat.div_le_self _ _
  have h1 : (pos + bv.bv_len / SECTOR_SIZE) % U64 = pos + bv.bv_len / SECTOR_SIZE := by
    rw [hU, hS]; omega
  have hlenEq : (if (pos + bv.bv_len / SECTOR_SIZE) % U64 > capacity
        then (capacity + U64 - pos) % U64 else bv.bv_len / SECTOR_SIZE)
      = min (bv.bv_len / SECTOR_SIZE) (capacity - pos) := by
    rw [h1, hU, hS]; split <;> omega
  have hoff : (pos * SECTOR_SIZE) % U64 = pos * SECTOR_SIZE := by
    rw [hU, hS]; omega
  have hnb : (min (bv.bv_len / SECTOR_SIZE) (capacity - pos) * SECTOR_SIZE) % U64
      = min (bv.bv_len / SECTOR_SIZE) (capacity - pos) * SECTOR_SIZE := by
    rw [hU, hS]
    have : min (bv.bv_len / SECTOR_SIZE) (capacity - pos) ≤ bv.bv_len / SECTOR_SIZE :=
      Nat.min_le_left _ _
    omega
  simp only [sbdd_xfer, hlenEq, hoff, hnb]

theorem sbdd_xfer_len_eq (capacity pos : Nat) (bv : BioVec) (data : Nat → Nat) (dir : Bool)
    (hcap : capacity < 2 ^ 55) (hpos : pos ≤ capacity) (hlen : bv.bv_len < 2 ^ 32) :
    (sbdd_xfer capacity data bv pos dir).len = min (bv.bv_len / SECTOR_SIZE) (capacity - pos) := by
  rw [sbdd_xfer_eq capacity pos bv data dir hcap hpos hlen]
  cases dir <;> rfl

theorem sbdd_xfer_data_write (capacity pos : Nat) (bv : BioVec) (data : Nat → Nat)
    (hcap : capacity < 2 ^ 55) (hpos : pos ≤ capacity) (hlen : bv.bv_len < 2 ^ 32) :
    (sbdd_xfer capacity data bv pos true).data = fun i =>
      if pos * SECTOR_SIZE ≤ i ∧
          i < pos * SECTOR_SIZE + min (bv.bv_len / SECTOR_SIZE) (capacity - pos) * SECTOR_SIZE
        then bv.buff (i - pos * SECTOR_SIZE) else data i := by
  rw [sbdd_xfer_eq capacity pos bv data true hcap hpos hlen]; rfl

theorem sbdd_xfer_data_read (capacity pos : Nat) (bv : BioVec) (data : Nat → Nat)
    (hcap : capacity < 2 ^ 55) (hpos : pos ≤ capacity) (hlen : bv.bv_len < 2 ^ 32) :
    (sbdd_xfer capacity data bv pos false).data = data := by
  rw [sbdd_xfer_eq capacity pos bv data false hcap hpos hlen]; rfl

theorem sbdd_xfer_buff_read (capacity pos : Nat) (bv : BioVec) (data : Nat → Nat)
    (hcap : capacity < 2 ^ 55) (hpos : pos ≤ capacity) (hlen : bv.bv_len < 2 ^ 32) :
    (sbdd_xfer capacity data bv pos false).buff = fun i =>
      if i < min (bv.bv_len / SECTOR_SIZE) (capacity - pos) * SECTOR_SIZE
        then data (pos * SECTOR_SIZE + i) else bv.buff i := by
  rw [sbdd_xfer_eq capacity pos bv data false hcap hpos hlen]; rfl

/-! C1 -/

/-- Segment used by the counterexample to C1: one sector of byte value 7. -/
def cexBvec1 : BioVec := { buff := fun _ => 7, bv_len := 512 }

/-- C1 counterexample: with capacity 4 sectors and position 5 (one past the
capacity), the claim's clamp to `0` for `pos ≥ capacity` fails: the 64-bit
subtraction `capacity - pos` wraps, the returned length is `2 ^ 64 - 1`
instead of `0`, and the write mutates byte 0 of sector 5, which lies at or
beyond the capacity. -/
theorem sbdd_xfer_wraps_beyond_capacity :
    (sbdd_xfer 4 zeroBytes cexBvec1 5 true).len ≠ 0
    ∧ (sbdd_xfer 4 zeroBytes cexBvec1 5 true).len = 2 ^ 64 - 1
    ∧ (sbdd_xfer 4 zeroBytes cexBvec1 5 true).data (5 * SECTOR_SIZE) = 7
    ∧ zeroBytes (5 * SECTOR_SIZE) = 0 := by
  refine ⟨?_, ?_, ?_, rfl⟩ <;> decide

/-- C1 (amended with `pos ≤ capacity`): for every single-segment transfer at a
sector position `pos ≤ capacity`, the returned length is the requested length
clamped at `capacity - pos` (hence `0` when `pos = capacity`), the transfer
stays inside `[0, capacity)` sectors, and no byte of the backing store at or
beyond `capacity * SECTOR_SIZE` is mutated, regardless of the requested
length. -/
theorem sbdd_xfer_clips_within_capacity (capacity pos : Nat) (bv : BioVec)
    (data : Nat → Nat) (dir : Bool)
    (hcap : capacity < 2 ^ 55) (hpos : pos ≤ capacity) (hlen : bv.bv_len < 2 ^ 32) :
    (sbdd_xfer capacity data bv pos dir).len = min (bv.bv_len / SECTOR_SIZE) (capacity - pos)
    ∧ (pos = capacity → (sbdd_xfer capacity data bv pos dir).len = 0)
    ∧ pos + (sbdd_xfer capacity data bv pos dir).len ≤ capacity
    ∧ (∀ i, capacity * SECTOR_SIZE ≤ i → (sbdd_xfer capacity data bv pos dir).data i = data i) := by
  have hS : SECTOR_SIZE = 512 := by norm_num [SECTOR_SIZE, SECTOR_SHIFT]
  have hlenEq := sbdd_xfer_len_eq capacity pos bv data dir hcap hpos hlen
  refine ⟨hlenEq, ?_, ?_, ?_⟩
  · intro h
    rw [hlenEq, h]
    omega
  · rw [hlenEq]
    omega
  · intro i hi
    cases dir
    · rw [sbdd_xfer_data_read capacity pos bv data hcap hpos hlen]
    · rw [sbdd_xfer_data_write capacity pos bv data hcap hpos hlen]
      have hmin : min (bv.bv_len / SECTOR_SIZE) (capacity - pos) ≤ capacity - pos :=
        Nat.min_le_right _ _
      dsimp only
      rw [if_neg]
      rw [hS] at hi ⊢
      omega

/-- C1 witness: capacity 16, position 12, requested 8 sectors, write; the
transfer is clamped to 4 sectors and byte 99999 (beyond the capacity) is
untouched. -/
theorem sbdd_xfer_clips_within_capacity_witness :
    (sbdd_xfer 16 zeroBytes { buff := fun _ => 1, bv_len := 4096 } 12 true).len
        = min (4096 / SECTOR_SIZE) (16 - 12)
    ∧ (sbdd_xfer 16 zeroBytes { buff := fun _ => 1, bv_len := 4096 } 12 true).data 99999
        = zeroBytes 99999 := by
  have h := sbdd_xfer_clips_within_capacity 16 12 { buff := fun _ => 1, bv_len := 4096 }
    zeroBytes true (by norm_num) (by norm_num) (by norm_num)
  exact ⟨h.1, h.2.2.2 99999 (by norm_num [SECTOR_SIZE, SECTOR_SHIFT])⟩

/-! C5 -/

/-- Segment used by the counterexample to C5: two sectors of byte value 9. -/
def cexBvec5 : BioVec := { buff := fun _ => 9, bv_len := 1024 }

/-- C5 counterexample: with capacity 8 sectors and position 10, the returned
sector count is `2 ^ 64 - 2`, which exceeds the requested 2 sectors and is in
particular not `min(requested, capacity - pos)` under any reading (that `min`
is at most the requested length). -/
theorem xfer_len_not_min_beyond_capacity :
    (sbdd_xfer 8 zeroBytes cexBvec5 10 true).len = 2 ^ 64 - 2
    ∧ ¬ (sbdd_xfer 8 zeroBytes cexBvec5 10 true).len ≤ cexBvec5.bv_len / SECTOR_SIZE
    ∧ min (cexBvec5.bv_len / SECTOR_SIZE) (8 - 10) = 0
    ∧ (sbdd_xfer 8 zeroBytes cexBvec5 10 true).len ≠ 0 := by
  refine ⟨?_, ?_, ?_, ?_⟩ <;> decide

/-- C5 (amended with `pos ≤ capacity`): the returned sector count equals the
clipped length `min(requested sectors, capacity - pos)`, clipping is not an
error — the dispatcher still completes the request with `BLK_STS_OK` — and no
byte at or beyond the capacity is touched. -/
theorem xfer_len_eq_min_and_ok (s : SbddState) (bv : BioVec) (dir : Bool) (pos : Nat)
    (hcap : s.capacity < 2 ^ 55) (hpos : pos ≤ s.capacity) (hlen : bv.bv_len < 2 ^ 32)
    (hdel : s.deleting = false) (hrefs : s.refs_cnt ≠ 0) :
    (sbdd_xfer s.capacity s.data bv pos dir).len
      = min (bv.bv_len / SECTOR_SIZE) (s.capacity - pos)
    ∧ (sbdd_make_request s { dir := dir, sector := pos, segs := [bv] }).2.1 = BlkStatus.ok
    ∧ (∀ i, s.capacity * SECTOR_SIZE ≤ i →
        (sbdd_xfer s.capacity s.data bv pos dir).data i = s.data i) := by
  have hS : SECTOR_SIZE = 512 := by norm_num [SECTOR_SIZE, SECTOR_SHIFT]
  refine ⟨sbdd_xfer_len_eq s.capacity pos bv s.data dir hcap hpos hlen, ?_, ?_⟩
  · simp only [sbdd_make_request, hdel, hrefs, if_false, Bool.false_eq_true, ite_false]
  · intro i hi
    cases dir
    · rw [sbdd_xfer_data_read s.capacity pos bv s.data hcap hpos hlen]
    · rw [sbdd_xfer_data_write s.capacity pos bv s.data hcap hpos hlen]
      have hmin : min (bv.bv_len / SECTOR_SIZE) (s.capacity - pos) ≤ s.capacity - pos :=
        Nat.min_le_right _ _
      dsimp only
      rw [if_neg]
      rw [hS] at hi ⊢
      omega

/-- Device state used by the C5 witness: capacity 2048 sectors, alive. -/
def sW5 : SbddState := { deleting := false, refs_cnt := 1, capacity := 2048, data := zeroBytes }

/-- Segment used by the C5 witness: 20 sectors. -/
def bvW5 : BioVec := { buff := fun _ => 3, bv_len := 10240 }

/-- C5 witness: the spec's concrete example — capacity 2048, write at sector
2040 of 20 sectors returns 8 sectors, completes with `BLK_STS_OK`, and the
first byte at sector 2048 is untouched. -/
theorem xfer_len_eq_min_and_ok_witness :
    (sbdd_xfer 2048 zeroBytes bvW5 2040 true).len = min (10240 / SECTOR_SIZE) (2048 - 2040)
    ∧ min (10240 / SECTOR_SIZE) (2048 - 2040) = 8
    ∧ (sbdd_make_request sW5 { dir := true, sector := 2040, segs := [bvW5] }).2.1 = BlkStatus.ok
    ∧ (sbdd_xfer 2048 zeroBytes bvW5 2040 true).data (2048 * SECTOR_SIZE)
        = zeroBytes (2048 * SECTOR_SIZE) := by
  have h := xfer_len_eq_min_and_ok sW5 bvW5 true 2040 (by norm_num [sW5]) (by norm_num [sW5])
    (by norm_num [bvW5]) rfl (by norm_num [sW5])
  exact ⟨h.1, by decide, h.2.1, h.2.2 (2048 * SECTOR_SIZE) le_rfl⟩

/-! C7 -/

/-- C7: writing a payload `P` of `k` sectors at sector `s` with
`s + k ≤ capacity` and then reading `k` sectors at `s` returns exactly the
bytes of `P`. -/
theorem write_then_read_roundtrip (capacity s k : Nat) (data P rbuf : Nat → Nat)
    (hcap : capacity < 2 ^ 55) (hk : k * SECTOR_SIZE < 2 ^ 32) (hsk : s + k ≤ capacity) :
    ∀ i, i < k * SECTOR_SIZE →
      (sbdd_xfer capacity
          (sbdd_xfer capacity data { buff := P, bv_len := k * SECTOR_SIZE } s true).data
          { buff := rbuf, bv_len := k * SECTOR_SIZE } s false).buff i = P i := by
  intro i hi
  have hpos : s ≤ capacity := by omega
  have hS : SECTOR_SIZE = 512 := by norm_num [SECTOR_SIZE, SECTOR_SHIFT]
  have hdiv : k * SECTOR_SIZE / SECTOR_SIZE = k := by rw [hS]; omega
  have hmin : min (k * SECTOR_SIZE / SECTOR_SIZE) (capacity - s) = k := by rw [hdiv]; omega
  rw [sbdd_xfer_buff_read capacity s { buff := rbuf, bv_len := k * SECTOR_SIZE } _ hcap hpos hk]
  dsimp only
  rw [hmin, if_pos hi]
  rw [sbdd_xfer_data_write capacity s { buff := P, bv_len := k * SECTOR_SIZE } data hcap hpos hk]
  dsimp only
  rw [hmin, if_pos ⟨Nat.le_add_right _ _, by omega⟩, Nat.add_sub_cancel_left]

/-- Payload used by the C7 witness. -/
def payloadW7 : Nat → Nat := fun i => (i + 1) % 256

/-- C7 witness: with capacity 8, payload of 3 sectors written at sector 2,
the read-back at byte index 7 returns byte 7 of the payload. -/
theorem write_then_read_roundtrip_witness :
    (sbdd_xfer 8
        (sbdd_xfer 8 zeroBytes { buff := payloadW7, bv_len := 3 * SECTOR_SIZE } 2 true).data
        { buff := zeroBytes, bv_len := 3 * SECTOR_SIZE } 2 false).buff 7 = payloadW7 7 :=
  write_then_read_roundtrip 8 2 3 zeroBytes payloadW7 zeroBytes (by norm_num)
    (by norm_num [SECTOR_SIZE, SECTOR_SHIFT]) (by norm_num) 7
    (by norm_num [SECTOR_SIZE, SECTOR_SHIFT])

/-! C10 -/

/-- C10: for every transfer — read or write — of a segment whose byte length
is not a multiple of the sector size (and which fits below the capacity), the
transfer silently operates on the whole-sector prefix only.  In both
directions the returned count is the truncating division
`bv_len / SECTOR_SIZE` (strictly fewer bytes than `bv_len` take part) and no
error is reported.  For a write, exactly the whole-sector prefix of the
segment is copied into the store and no store byte outside
`[pos * SECTOR_SIZE, pos * SECTOR_SIZE + (bv_len / SECTOR_SIZE) * SECTOR_SIZE)`
is mutated.  For a read, exactly that many store bytes are copied
store→segment: the segment's whole-sector prefix receives them, its trailing
`bv_len % SECTOR_SIZE` bytes are left untouched, and the store is not
mutated at all. -/
theorem xfer_truncates_partial_sector (capacity pos : Nat) (bv : BioVec) (data : Nat → Nat)
    (dir : Bool)
    (hcap : capacity < 2 ^ 55) (hlen : bv.bv_len < 2 ^ 32)
    (hfit : pos + bv.bv_len / SECTOR_SIZE ≤ capacity)
    (hmod : bv.bv_len % SECTOR_SIZE ≠ 0) :
    (sbdd_xfer capacity data bv pos dir).len = bv.bv_len / SECTOR_SIZE
    ∧ (sbdd_xfer capacity data bv pos dir).len * SECTOR_SIZE < bv.bv_len
    ∧ (∀ i, i < (bv.bv_len / SECTOR_SIZE) * SECTOR_SIZE →
        (sbdd_xfer capacity data bv pos true).data (pos * SECTOR_SIZE + i) = bv.buff i)
    ∧ (∀ i, pos * SECTOR_SIZE + (bv.bv_len / SECTOR_SIZE) * SECTOR_SIZE ≤ i →
        (sbdd_xfer capacity data bv pos true).data i = data i)
    ∧ (∀ i, i < pos * SECTOR_SIZE → (sbdd_xfer capacity data bv pos true).data i = data i)
    ∧ (∀ i, i < (bv.bv_len / SECTOR_SIZE) * SECTOR_SIZE →
        (sbdd_xfer capacity data bv pos false).buff i = data (pos * SECTOR_SIZE + i))
    ∧ (∀ i, (bv.bv_len / SECTOR_SIZE) * SECTOR_SIZE ≤ i →
        (sbdd_xfer capacity data bv pos false).buff i = bv.buff i)
    ∧ (sbdd_xfer capacity data bv pos false).data = data := by
  have hS : SECTOR_SIZE = 512 := by norm_num [SECTOR_SIZE, SECTOR_SHIFT]
  have hpos : pos ≤ capacity := by rw [hS] at hfit; omega
  have hmin : min (bv.bv_len / SECTOR_SIZE) (capacity - pos) = bv.bv_len / SECTOR_SIZE := by
    rw [hS] at hfit ⊢; omega
  have hlenEq : (sbdd_xfer capacity data bv pos dir).len = bv.bv_len / SECTOR_SIZE := by
    rw [sbdd_xfer_len_eq capacity pos bv data dir hcap hpos hlen, hmin]
  have hdata := sbdd_xfer_data_write capacity pos bv data hcap hpos hlen
  have hbuff := sbdd_xfer_buff_read capacity pos bv data hcap hpos hlen
  refine ⟨hlenEq, ?_, ?_, ?_, ?_, ?_, ?_,
    sbdd_xfer_data_read capacity pos bv data hcap hpos hlen⟩
  · rw [hlenEq, hS]
    rw [hS] at hmod
    omega
  · intro i hi
    rw [hdata]
    dsimp only
    rw [hmin, if_pos ⟨Nat.le_add_right _ _, by omega⟩, Nat.add_sub_cancel_left]
  · intro i hi
    rw [hdata]
    dsimp only
    rw [hmin, if_neg (by omega)]
  · intro i hi
    rw [hdata]
    dsimp only
    rw [hmin, if_neg (by omega)]
  · intro i hi
    rw [hbuff]
    dsimp only
    rw [hmin, if_pos hi]
  · intro i hi
    rw [hbuff]
    dsimp only
    rw [hmin, if_neg (by omega)]

/-- Segment used by the C10 witness: 1100 bytes = 2 whole sectors + 76 bytes. -/
def bvW10 : BioVec := { buff := fun i => i + 10, bv_len := 1100 }

/-- C10 witness: with capacity 8 and position 1, the 1100-byte segment
transfers `1100 / 512 = 2` sectors in both directions.  Write: byte 5 of the
prefix is copied into the store, while the store below the target offset and
past the copied prefix is untouched.  Read: byte 5 of the segment receives
the store byte, while segment byte 1040 — inside the trailing 76-byte partial
sector — keeps its original value. -/
theorem xfer_truncates_partial_sector_witness :
    (sbdd_xfer 8 zeroBytes bvW10 1 true).len = 1100 / SECTOR_SIZE
    ∧ (sbdd_xfer 8 zeroBytes bvW10 1 false).len = 1100 / SECTOR_SIZE
    ∧ (sbdd_xfer 8 zeroBytes bvW10 1 true).data (1 * SECTOR_SIZE + 5) = bvW10.buff 5
    ∧ (sbdd_xfer 8 zeroBytes bvW10 1 true).data 5000 = zeroBytes 5000
    ∧ (sbdd_xfer 8 zeroBytes bvW10 1 true).data 3 = zeroBytes 3
    ∧ (sbdd_xfer 8 zeroBytes bvW10 1 false).buff 5 = zeroBytes (1 * SECTOR_SIZE + 5)
    ∧ (sbdd_xfer 8 zeroBytes bvW10 1 false).buff 1040 = bvW10.buff 1040
    ∧ (sbdd_xfer 8 zeroBytes bvW10 1 false).data = zeroBytes := by
  have ht := xfer_truncates_partial_sector 8 1 bvW10 zeroBytes true (by norm_num)
    (by norm_num [bvW10]) (by norm_num [bvW10, SECTOR_SIZE, SECTOR_SHIFT])
    (by norm_num [bvW10, SECTOR_SIZE, SECTOR_SHIFT])
  have hf := xfer_truncates_partial_sector 8 1 bvW10 zeroBytes false (by norm_num)
    (by norm_num [bvW10]) (by norm_num [bvW10, SECTOR_SIZE, SECTOR_SHIFT])
    (by norm_num [bvW10, SECTOR_SIZE, SECTOR_SHIFT])
  exact ⟨ht.1, hf.1,
    ht.2.2.1 5 (by norm_num [bvW10, SECTOR_SIZE, SECTOR_SHIFT]),
    ht.2.2.2.1 5000 (by norm_num [bvW10, SECTOR_SIZE, SECTOR_SHIFT]),
    ht.2.2.2.2.1 3 (by norm_num [SECTOR_SIZE, SECTOR_SHIFT]),
    hf.2.2.2.2.2.1 5 (by norm_num [bvW10, SECTOR_SIZE, SECTOR_SHIFT]),
    hf.2.2.2.2.2.2.1 1040 (by norm_num [bvW10, SECTOR_SIZE, SECTOR_SHIFT]),
    hf.2.2.2.2.2.2.2⟩

/-! C6 -/

theorem xfer_bio_length (cap : Nat) (dir : Bool) (segs : List BioVec) (pos : Nat)
    (data : Nat → Nat) :
    (sbdd_xfer_bio cap dir segs pos data).1.length = segs.length := by
  induction segs generalizing pos data with
  | nil => rfl
  | cons b t ih => simp [sbdd_xfer_bio, ih]

theorem xfer_bio_get (cap : Nat) (dir : Bool) (segs : List BioVec) (pos : Nat)
    (data : Nat → Nat) (i : Nat) (b : BioVec) (hsome : segs.get? i = some b) :
    (sbdd_xfer_bio cap dir segs pos data).1.get? i = some
      ((sbdd_xfer cap (sbdd_xfer_bio cap dir (List.take i segs) pos data).2 b
        (pos + (sbdd_xfer_bio cap dir (List.take i segs) pos data).1.sum) dir).len) := by
  induction segs generalizing pos data i with
  | nil => simp at hsome
  | cons hd tl ih =>
    cases i with
    | zero =>
      rw [List.get?_cons_zero] at hsome
      cases hsome
      simp [sbdd_xfer_bio]
    | succ n =>
      rw [List.get?_cons_succ] at hsome
      have h := ih (pos + (sbdd_xfer cap data hd pos dir).len)
        ((sbdd_xfer cap data hd pos dir).data) n hsome
      simp only [sbdd_xfer_bio, List.take_succ_cons, List.sum_cons, List.get?_cons_succ]
      rw [h, ← Nat.add_assoc]

/-- C6: for every request, every segment is attempted (the per-segment result
list has one entry per segment, clipping never aborts the loop), the segments
are processed in submission order, and the `i`-th transfer is invoked with the
running position — the starting sector plus the sectors actually transferred
(not requested) by the previous segments — on the store produced by them. -/
theorem xfer_bio_processes_segments_in_order (cap : Nat) (dir : Bool) (segs : List BioVec)
    (pos : Nat) (data : Nat → Nat) :
    (sbdd_xfer_bio cap dir segs pos data).1.length = segs.length
    ∧ ∀ i b, segs.get? i = some b →
        (sbdd_xfer_bio cap dir segs pos data).1.get? i = some
          ((sbdd_xfer cap (sbdd_xfer_bio cap dir (List.take i segs) pos data).2 b
            (pos + (sbdd_xfer_bio cap dir (List.take i segs) pos data).1.sum) dir).len) :=
  ⟨xfer_bio_length cap dir segs pos data,
   fun i b hsome => xfer_bio_get cap dir segs pos data i b hsome⟩

/-- Segments used by the C6 witness: two 2-sector segments. -/
def segsW6 : List BioVec :=
  [{ buff := fun _ => 1, bv_len := 1024 }, { buff := fun _ => 2, bv_len := 1024 }]

/-- C6 witness: with capacity 4 and start 3, the first segment is clipped to
1 sector and the second still runs at the advanced position 4, transferring 0
sectors: the result list is `[1, 0]` — one entry per segment. -/
theorem xfer_bio_processes_segments_in_order_witness :
    (sbdd_xfer_bio 4 true segsW6 3 zeroBytes).1.length = segsW6.length
    ∧ (sbdd_xfer_bio 4 true segsW6 3 zeroBytes).1 = [1, 0]
    ∧ (sbdd_xfer_bio 4 true segsW6 3 zeroBytes).1.get? 1 = some
        ((sbdd_xfer 4 (sbdd_xfer_bio 4 true (List.take 1 segsW6) 3 zeroBytes).2
          { buff := fun _ => 2, bv_len := 1024 }
          (3 + (sbdd_xfer_bio 4 true (List.take 1 segsW6) 3 zeroBytes).1.sum) true).len) := by
  refine ⟨(xfer_bio_processes_segments_in_order 4 true segsW6 3 zeroBytes).1, ?_, ?_⟩
  · decide
  · exact (xfer_bio_processes_segments_in_order 4 true segsW6 3 zeroBytes).2 1
      { buff := fun _ => 2, bv_len := 1024 } rfl

/-! C4 -/

/-- C4: `sbdd_make_request` rejects with an I/O error and leaves the state
untouched (no transfer) exactly when the deleting flag is set or the counter
is 0 (so `atomic_inc_not_zero` fails); otherwise the counter is incremented,
the transfer runs, success is reported, the counter is decremented back, and
the wake-up of the drain wait is issued exactly when that decrement reaches
0. -/
theorem make_request_reject_iff_and_completion (s : SbddState) (bio : Bio) :
    (((sbdd_make_request s bio).2.1 = BlkStatus.ioerr ∧ (sbdd_make_request s bio).1 = s)
      ↔ (s.deleting = true ∨ s.refs_cnt = 0))
    ∧ (s.deleting = false → s.refs_cnt ≠ 0 →
        (sbdd_make_request s bio).2.1 = BlkStatus.ok
        ∧ (sbdd_make_request s bio).1.refs_cnt = s.refs_cnt + 1 - 1
        ∧ (sbdd_make_request s bio).1.data
            = (sbdd_xfer_bio s.capacity bio.dir bio.segs bio.sector s.data).2
        ∧ ((sbdd_make_request s bio).2.2 = true ↔ s.refs_cnt + 1 - 1 = 0)) := by
  by_cases hd : s.deleting
  · simp [sbdd_make_request, hd]
  · by_cases hr : s.refs_cnt = 0
    · simp [sbdd_make_request, hd, hr]
    · simp [sbdd_make_request, hd, hr]

/-- Device state used by the C4 witness. -/
def sW4 : SbddState := { deleting := false, refs_cnt := 2, capacity := 4, data := zeroBytes }

/-- Request used by the C4 witness: an empty write at sector 0. -/
def bioW4 : Bio := { dir := true, sector := 0, segs := [] }

/-- C4 witness: on a live device with counter 2, the request is not rejected,
completes with `BLK_STS_OK`, the counter is restored to its prior value, and
no wake-up is issued. -/
theorem make_request_reject_iff_and_completion_witness :
    (((sbdd_make_request sW4 bioW4).2.1 = BlkStatus.ioerr ∧ (sbdd_make_request sW4 bioW4).1 = sW4)
      ↔ (sW4.deleting = true ∨ sW4.refs_cnt = 0))
    ∧ (sbdd_make_request sW4 bioW4).2.1 = BlkStatus.ok
    ∧ (sbdd_make_request sW4 bioW4).1.refs_cnt = sW4.refs_cnt + 1 - 1
    ∧ ((sbdd_make_request sW4 bioW4).2.2 = true ↔ sW4.refs_cnt + 1 - 1 = 0) := by
  have h := make_request_reject_iff_and_completion sW4 bioW4
  have h2 := h.2 rfl (by norm_num [sW4])
  exact ⟨h.1, h2.1, h2.2.1, h2.2.2.2⟩

/-! C9 -/

/-- Environment in which every allocation of `sbdd_create` succeeds. -/
def envAllOk : CreateEnv :=
  { register_ok := true, vzalloc_ok := true, q_ok := true, gd_ok := true }

/-- C9: on successful creation, the capacity is the capacity-in-MiB parameter
(default 100) times `MIB_SECTORS = 2048` sectors of `SECTOR_SIZE = 512`
bytes, the backing store is zero-allocated with `capacity * SECTOR_SIZE`
bytes, the admission counter starts at 1, the deleting flag is clear, and the
device is published. -/
theorem create_success_initial_state (mib : Nat)
    (h : mib * MIB_SECTORS * SECTOR_SIZE < U64) :
    (sbdd_create mib envAllOk).2 = CreateResult.ok
    ∧ (sbdd_create mib envAllOk).1.capacity = mib * MIB_SECTORS
    ∧ MIB_SECTORS = 2048
    ∧ SECTOR_SIZE = 512
    ∧ (sbdd_create mib envAllOk).1.dataBytes = mib * MIB_SECTORS * SECTOR_SIZE
    ∧ (sbdd_create mib envAllOk).1.data = some zeroBytes
    ∧ (sbdd_create mib envAllOk).1.refs_cnt = 1
    ∧ (sbdd_create mib envAllOk).1.deleting = false
    ∧ (sbdd_create mib envAllOk).1.published = true
    ∧ sbdd_capacity_mib_default = 100 := by
  have hS1 : 0 < SECTOR_SIZE := by norm_num [SECTOR_SIZE]
  have hm : (mib * MIB_SECTORS) % U64 = mib * MIB_SECTORS :=
    Nat.mod_eq_of_lt (Nat.lt_of_le_of_lt (Nat.le_mul_of_pos_right _ hS1) h)
  have hdb : (mib * MIB_SECTORS % U64 * SECTOR_SIZE) % U64 = mib * MIB_SECTORS * SECTOR_SIZE := by
    rw [hm]
    exact Nat.mod_eq_of_lt h
  refine ⟨?_, ?_, by norm_num [MIB_SECTORS, SECTOR_SHIFT], by norm_num [SECTOR_SIZE, SECTOR_SHIFT],
    ?_, ?_, ?_, ?_, ?_, rfl⟩ <;>
    simp [sbdd_create, envAllOk, hm, hdb, Nat.mod_eq_of_lt h, zeroDev]

/-- C9 witness: creation with the default parameter 100 MiB. -/
theorem create_success_initial_state_witness :
    (sbdd_create 100 envAllOk).2 = CreateResult.ok
    ∧ (sbdd_create 100 envAllOk).1.capacity = 100 * MIB_SECTORS
    ∧ MIB_SECTORS = 2048
    ∧ SECTOR_SIZE = 512
    ∧ (sbdd_create 100 envAllOk).1.dataBytes = 100 * MIB_SECTORS * SECTOR_SIZE
    ∧ (sbdd_create 100 envAllOk).1.data = some zeroBytes
    ∧ (sbdd_create 100 envAllOk).1.refs_cnt = 1
    ∧ (sbdd_create 100 envAllOk).1.deleting = false
    ∧ (sbdd_create 100 envAllOk).1.published = true
    ∧ sbdd_capacity_mib_default = 100 :=
  create_success_initial_state 100
    (by norm_num [MIB_SECTORS, SECTOR_SIZE, SECTOR_SHIFT, U64])

/-! C8 -/

/-- C8: the code diverges from the claim.  `alloc_disk` failure is not
checked: `sbdd_create` dereferences the NULL `gendisk` (modelled as `crash`)
instead of aborting with rollback; and there is no `capacity > 0` validation:
with `capacity_mib = 0` and all allocations succeeding, creation succeeds and
publishes a 0-capacity device. -/
theorem create_unchecked_gendisk_and_no_capacity_validation :
    (sbdd_create 100 { register_ok := true, vzalloc_ok := true, q_ok := true, gd_ok := false }).2
        = CreateResult.crash
    ∧ (sbdd_create 0 envAllOk).2 = CreateResult.ok
    ∧ (sbdd_create 0 envAllOk).1.capacity = 0
    ∧ (sbdd_create 0 envAllOk).1.published = true := by
  refine ⟨?_, ?_, ?_, ?_⟩ <;> decide

/-! Invariants of the interleaving model. -/

/-- 1 for an `admitted` thread (one held admission token), 0 otherwise. -/
def admVal : RPC → Nat := fun r => if r = RPC.admitted then 1 else 0

/-- Number of threads currently holding an admission token. -/
def countAdm : List RPC → Nat
  | [] => 0
  | r :: t => admVal r + countAdm t

/-- Tokens held by the deleter: 1 while the creation-time token has not yet
been released by `atomic_dec_if_positive`, 0 afterwards. -/
def ctok : DPC → Nat
  | DPC.setFlag => 1
  | DPC.decTok => 1
  | _ => 0

theorem countAdm_replicate_start (n : Nat) : countAdm (List.replicate n RPC.start) = 0 := by
  induction n with
  | zero => rfl
  | succ m ih => simp [List.replicate_succ, countAdm, admVal, ih]

theorem countAdm_set (l : List RPC) (i : Nat) (a b : RPC) (h : l.get? i = some a) :
    countAdm (l.set i b) + admVal a = countAdm l + admVal b := by
  induction l generalizing i with
  | nil => simp at h
  | cons hd tl ih =>
    cases i with
    | zero =>
      rw [List.get?_cons_zero] at h
      cases h
      simp only [List.set, countAdm]
      omega
    | succ n =>
      rw [List.get?_cons_succ] at h
      simp only [List.set, countAdm]
      have := ih n h
      omega

theorem countAdm_pos (l : List RPC) (i : Nat) (h : l.get? i = some RPC.admitted) :
    1 ≤ countAdm l := by
  induction l generalizing i with
  | nil => simp at h
  | cons hd tl ih =>
    cases i with
    | zero =>
      rw [List.get?_cons_zero] at h
      cases h
      simp [countAdm, admVal]
    | succ n =>
      rw [List.get?_cons_succ] at h
      have := ih n h
      simp only [countAdm]
      omega

theorem countAdm_eq_zero (l : List RPC) (h : countAdm l = 0) :
    ∀ r ∈ l, r ≠ RPC.admitted := by
  induction l with
  | nil => intro r hr; simp at hr
  | cons hd tl ih =>
    simp only [countAdm] at h
    intro r hr
    rcases List.mem_cons.1 hr with h1 | h2
    · subst h1
      intro hadm
      subst hadm
      simp [admVal] at h
    · exact ih (by omega) r h2

/-- The inductive invariant of the interleaving model: the admission counter
equals the number of admitted (in-flight) threads plus the deleter's
creation-time token; once the deleter is past the drain wait the counter is
0; and the freed flag tracks the deleter's final program point. -/
def Inv (s : CState) : Prop :=
  s.refs = countAdm s.reqs + ctok s.dpc
  ∧ ((s.dpc = DPC.unpublished ∨ s.dpc = DPC.freed) → s.refs = 0)
  ∧ (s.freed = true ↔ s.dpc = DPC.freed)

theorem inv_init (n : Nat) : Inv (initC n) := by
  refine ⟨?_, ?_, ?_⟩
  · simp [initC, countAdm_replicate_start, ctok]
  · intro h
    rcases h with h | h <;> exact DPC.noConfusion h
  · simp [initC]

theorem inv_step (s s' : CState) (hs : Inv s) (hstep : Step s s') : Inv s' := by
  obtain ⟨h1, h2, h3⟩ := hs
  cases hstep with
  | checkPass i hg hd =>
    refine ⟨?_, h2, h3⟩
    have hc := countAdm_set s.reqs i RPC.start RPC.checked hg
    simp only [admVal] at hc
    show s.refs = countAdm (s.reqs.set i RPC.checked) + ctok s.dpc
    simp at hc
    omega
  | checkFail i hg hd =>
    refine ⟨?_, h2, h3⟩
    have hc := countAdm_set s.reqs i RPC.start RPC.rejected hg
    simp only [admVal] at hc
    show s.refs = countAdm (s.reqs.set i RPC.rejected) + ctok s.dpc
    simp at hc
    omega
  | incFail i hg hr =>
    refine ⟨?_, h2, h3⟩
    have hc := countAdm_set s.reqs i RPC.checked RPC.rejected hg
    simp only [admVal] at hc
    show s.refs = countAdm (s.reqs.set i RPC.rejected) + ctok s.dpc
    simp at hc
    omega
  | incOk i hg hr =>
    refine ⟨?_, ?_, h3⟩
    · have hc := countAdm_set s.reqs i RPC.checked RPC.admitted hg
      simp only [admVal] at hc
      show s.refs + 1 = countAdm (s.reqs.set i RPC.admitted) + ctok s.dpc
      simp at hc
      omega
    · intro hdpc
      exact absurd (h2 hdpc) hr
  | finish i hg =>
    refine ⟨?_, ?_, h3⟩
    · have hc := countAdm_set s.reqs i RPC.admitted RPC.done hg
      have hpos := countAdm_pos s.reqs i hg
      simp only [admVal] at hc
      show s.refs - 1 = countAdm (s.reqs.set i RPC.done) + ctok s.dpc
      simp at hc
      omega
    · intro hdpc
      have h0 := h2 hdpc
      show s.refs - 1 = 0
      omega
  | delSet hd =>
    refine ⟨?_, ?_, ?_⟩
    · rw [hd] at h1
      show s.refs = countAdm s.reqs + ctok DPC.decTok
      simpa [ctok] using h1
    · intro hdpc
      rcases hdpc with h | h <;> exact DPC.noConfusion h
    · constructor
      · intro hf
        rw [hd] at h3
        exact absurd (h3.1 hf) (by intro hc; exact DPC.noConfusion hc)
      · intro hc
        exact absurd hc (by intro hc2; exact DPC.noConfusion hc2)
  | delDec hd =>
    refine ⟨?_, ?_, ?_⟩
    · rw [hd] at h1
      show s.refs - 1 = countAdm s.reqs + ctok DPC.waiting
      simp only [ctok] at h1 ⊢
      omega
    · intro hdpc
      rcases hdpc with h | h <;> exact DPC.noConfusion h
    · constructor
      · intro hf
        rw [hd] at h3
        exact absurd (h3.1 hf) (by intro hc; exact DPC.noConfusion hc)
      · intro hc
        exact absurd hc (by intro hc2; exact DPC.noConfusion hc2)
  | delWake hd hr0 =>
    refine ⟨?_, ?_, ?_⟩
    · rw [hd] at h1
      show s.refs = countAdm s.reqs + ctok DPC.unpublished
      simpa [ctok] using h1
    · intro _
      exact hr0
    · constructor
      · intro hf
        rw [hd] at h3
        exact absurd (h3.1 hf) (by intro hc; exact DPC.noConfusion hc)
      · intro hc
        exact absurd hc (by intro hc2; exact DPC.noConfusion hc2)
  | delFree hd =>
    refine ⟨?_, ?_, ?_⟩
    · rw [hd] at h1
      show s.refs = countAdm s.reqs + ctok DPC.freed
      simpa [ctok] using h1
    · intro _
      exact h2 (Or.inl hd)
    · simp

theorem reach_inv (n : Nat) (s : CState) (h : Reach (initC n) s) : Inv s := by
  unfold Reach at h
  induction h with
  | refl => exact inv_init n
  | tail hab hbc ih => exact inv_step _ _ ih hbc

/-! C2 -/

/-- State reached from `initC 2` after: thread 0 passes the deleting check,
thread 1 passes the deleting check and increments (refs 2), the deleter sets
the deleting flag and releases the creation token (refs 1). -/
def cexS2a : CState :=
  { deleting := true, refs := 1, freed := false,
    reqs := [RPC.checked, RPC.admitted], dpc := DPC.waiting }

/-- Successor of `cexS2a` after thread 0's `atomic_inc_not_zero` succeeds. -/
def cexS2b : CState :=
  { deleting := true, refs := 2, freed := false,
    reqs := [RPC.admitted, RPC.admitted], dpc := DPC.waiting }

/-- C2 counterexample: `cexS2a` is reachable, its deleting flag is set and its
counter is 1 (not yet 0), yet one more step — thread 0's
`atomic_inc_not_zero`, i.e. a successful admission `try_acquire` performed
after the flag was set — increases the counter to 2.  The counter is
therefore not monotonically non-increasing after the deleting flag is set. -/
theorem refs_can_increase_after_deleting_set :
    Reach (initC 2) cexS2a
    ∧ cexS2a.deleting = true ∧ cexS2a.refs = 1 ∧ cexS2a.refs ≠ 0
    ∧ Step cexS2a cexS2b ∧ cexS2b.refs = 2 := by
  refine ⟨?_, rfl, rfl, by decide, ?_, rfl⟩
  · refine Relation.ReflTransGen.head (Step.checkPass (initC 2) 0 rfl rfl) ?_
    refine Relation.ReflTransGen.head (Step.checkPass _ 1 rfl rfl) ?_
    refine Relation.ReflTransGen.head (Step.incOk _ 1 rfl (by decide)) ?_
    refine Relation.ReflTransGen.head (Step.delSet _ rfl) ?_
    exact Relation.ReflTransGen.single (Step.delDec _ rfl)
  · exact Step.incOk cexS2a 0 rfl (by decide)

/-- C2 (amended): after the deleting flag is set it stays set, and any
admission attempt whose deleting-flag check executes afterwards fails — a
thread at the check can only stay put or become rejected, never admitted.
Moreover once the counter reaches 0 no step ever increases it again
(`atomic_inc_not_zero` fails at 0, so 0 is terminal).  However — see the
counterexample — a thread that passed the deleting check before the flag was
set may still increment the counter afterwards while it is nonzero, so
monotonic non-increase holds only from the point the counter hits 0. -/
theorem deleting_blocks_new_admission_checks (s s' : CState) (hstep : Step s s') :
    (s.deleting = true → s'.deleting = true
      ∧ ∀ i, s.reqs.get? i = some RPC.start →
          s'.reqs.get? i = some RPC.start ∨ s'.reqs.get? i = some RPC.rejected)
    ∧ (s.refs = 0 → s'.refs = 0) := by
  cases hstep with
  | checkPass j hg hd =>
    refine ⟨?_, ?_⟩
    · intro hdel
      rw [hd] at hdel
      exact Bool.noConfusion hdel
    · intro h0
      exact h0
  | checkFail j hg hd =>
    refine ⟨?_, ?_⟩
    · intro _
      refine ⟨hd, ?_⟩
      intro i hi
      by_cases hij : j = i
      · subst hij
        right
        exact List.get?_set_eq_of_lt RPC.rejected (List.get?_eq_some.1 hi).choose
      · left
        rw [List.get?_set_ne _ _ hij]
        exact hi
    · intro h0
      exact h0
  | incOk j hg hr =>
    refine ⟨?_, ?_⟩
    · intro hdel
      refine ⟨hdel, ?_⟩
      intro i hi
      by_cases hij : j = i
      · subst hij
        rw [hi] at hg
        exact absurd (Option.some.inj hg) (by intro hc; exact RPC.noConfusion hc)
      · left
        rw [List.get?_set_ne _ _ hij]
        exact hi
    · intro h0
      exact absurd h0 hr
  | incFail j hg hr =>
    refine ⟨?_, ?_⟩
    · intro hdel
      refine ⟨hdel, ?_⟩
      intro i hi
      by_cases hij : j = i
      · subst hij
        rw [hi] at hg
        exact absurd (Option.some.inj hg) (by intro hc; exact RPC.noConfusion hc)
      · left
        rw [List.get?_set_ne _ _ hij]
        exact hi
    · intro h0
      exact h0
  | finish j hg =>
    refine ⟨?_, ?_⟩
    · intro hdel
      refine ⟨hdel, ?_⟩
      intro i hi
      by_cases hij : j = i
      · subst hij
        rw [hi] at hg
        exact absurd (Option.some.inj hg) (by intro hc; exact RPC.noConfusion hc)
      · left
        rw [List.get?_set_ne _ _ hij]
        exact hi
    · intro h0
      show s.refs - 1 = 0
      omega
  | delSet hd =>
    refine ⟨?_, ?_⟩
    · intro _
      exact ⟨rfl, fun i hi => Or.inl hi⟩
    · intro h0
      exact h0
  | delDec hd =>
    refine ⟨?_, ?_⟩
    · intro hdel
      exact ⟨hdel, fun i hi => Or.inl hi⟩
    · intro h0
      show s.refs - 1 = 0
      omega
  | delWake hd hr0 =>
    refine ⟨?_, ?_⟩
    · intro hdel
      exact ⟨hdel, fun i hi => Or.inl hi⟩
    · intro h0
      exact h0
  | delFree hd =>
    refine ⟨?_, ?_⟩
    · intro hdel
      exact ⟨hdel, fun i hi => Or.inl hi⟩
    · intro h0
      exact h0

/-- State used by the C2 witness: deleting set, counter drained, one thread
still at its deleting-flag check. -/
def sW2 : CState :=
  { deleting := true, refs := 0, freed := false, reqs := [RPC.start], dpc := DPC.waiting }

/-- Successor of `sW2`: the thread's check observes the deleting flag and the
request is rejected. -/
def sW2r : CState :=
  { deleting := true, refs := 0, freed := false, reqs := [RPC.rejected], dpc := DPC.waiting }

/-- C2 witness: in `sW2` the deleting flag is set; after the pending thread's
check step the flag is still set, the thread is rejected (not admitted), and
the counter stays 0. -/
theorem deleting_blocks_new_admission_checks_witness :
    sW2r.deleting = true
    ∧ (sW2r.reqs.get? 0 = some RPC.start ∨ sW2r.reqs.get? 0 = some RPC.rejected)
    ∧ sW2r.refs = 0 := by
  have hstep : Step sW2 sW2r := Step.checkFail sW2 0 rfl rfl
  have h := deleting_blocks_new_admission_checks sW2 sW2r hstep
  exact ⟨(h.1 rfl).1, (h.1 rfl).2 0 rfl, h.2 rfl⟩

/-! C3 -/

/-- C3: in every reachable state in which the backing store has been freed,
the deleter has passed the whole deletion sequence (set flag, release token,
drain to 0, unpublish, free — in that order, by construction of `Step`), the
admission counter is 0, and no request thread is between its successful
`try_acquire` and its release — i.e. no in-flight transfer can observe the
freed backing store. -/
theorem freed_implies_drained_and_no_admitted (n : Nat) (s : CState)
    (hreach : Reach (initC n) s) (hf : s.freed = true) :
    s.refs = 0 ∧ s.dpc = DPC.freed ∧ ∀ r ∈ s.reqs, r ≠ RPC.admitted := by
  obtain ⟨h1, h2, h3⟩ := reach_inv n s hreach
  have hdpc : s.dpc = DPC.freed := h3.1 hf
  have h0 : s.refs = 0 := h2 (Or.inr hdpc)
  refine ⟨h0, hdpc, ?_⟩
  have hca : countAdm s.reqs = 0 := by
    rw [hdpc] at h1
    simp only [ctok] at h1
    omega
  exact countAdm_eq_zero _ hca

/-- Final state of the deletion-only execution (no request threads). -/
def freedS : CState :=
  { deleting := true, refs := 0, freed := true, reqs := [], dpc := DPC.freed }

/-- C3 witness: with no request threads, the full deletion sequence reaches
`freedS`, and the theorem yields counter 0 and no admitted thread there. -/
theorem freed_implies_drained_and_no_admitted_witness :
    freedS.refs = 0 ∧ freedS.dpc = DPC.freed ∧ ∀ r ∈ freedS.reqs, r ≠ RPC.admitted := by
  apply freed_implies_drained_and_no_admitted 0 freedS ?_ rfl
  refine Relation.ReflTransGen.head (Step.delSet (initC 0) rfl) ?_
  refine Relation.ReflTransGen.head (Step.delDec _ rfl) ?_
  refine Relation.ReflTransGen.head (Step.delWake _ rfl rfl) ?_
  exact Relation.ReflTransGen.single (Step.delFree _ rfl)

end Sbdd
